import Mathlib

/-!
A verification development for the gyazo-mcp-server request-handling core
(`src/index.ts`).  The handlers are shallowly embedded: JavaScript strings
become `String`, JS objects become structures, optional / nullable values
become `Option`, and the effectful upstream HTTP calls are passed in as an
explicit environment while the sequence of upstream calls a handler performs
is returned as an explicit trace.  JS string truthiness (`if (s)`) is
modelled by non-emptiness, and absence of an optional string field is
modelled as `""` (both are falsy in JS).
-/

namespace GyazoMcp

/-- Metadata sub-record of an image record (`GyazoImage.metadata` in
`src/index.ts`).  All four fields are strings that may be empty; an absent
optional field is modelled as `""`, which JS truthiness tests treat the same
way. -/
structure GyazoMetadata where
  app : String
  title : String
  url : String
  desc : String
  deriving Repr, DecidableEq

/-- OCR sub-record (`GyazoImage.ocr` in `src/index.ts`). -/
structure GyazoOcr where
  locale : String
  description : String
  deriving Repr, DecidableEq

/-- The `GyazoImage` record type of `src/index.ts`. -/
structure GyazoImage where
  image_id : String
  permalink_url : String
  thumb_url : String
  url : String
  type : String
  created_at : String
  metadata : GyazoMetadata
  ocr : Option GyazoOcr
  deriving Repr, DecidableEq

/-- The `SearchedGyazoImage` record type of `src/index.ts` (search API
response items).  `access_policy` is nullable. -/
structure SearchedGyazoImage where
  image_id : String
  permalink_url : String
  url : String
  access_policy : Option String
  type : String
  thumb_url : String
  created_at : String
  alt_text : String
  deriving Repr, DecidableEq

/-- JS truthiness of a string: `if (s)` takes the then-branch iff `s` is
non-empty. -/
def truthy (s : String) : Bool := !(s == "")

/-- The JS optional chain `gyazoImage.ocr?.description`, with `undefined`
collapsed to `""` (both are falsy, and the value is only ever used under a
truthiness guard or after one). -/
def ocrDescription (g : GyazoImage) : String :=
  match g.ocr with
  | some o => o.description
  | none => ""

/-- The JS optional chain `gyazoImage.ocr?.locale`, with `undefined`
collapsed to `""`. -/
def ocrLocale (g : GyazoImage) : String :=
  match g.ocr with
  | some o => o.locale
  | none => ""

/-- Embedding of `getImageMetadataMarkdown` (src/index.ts lines 112-133):
starting from `""`, append one section per truthy field, in source order. -/
def getImageMetadataMarkdown (gyazoImage : GyazoImage) : String :=
  let md := ""
  let md := if truthy gyazoImage.metadata.title then
    md ++ "### Title:\n" ++ gyazoImage.metadata.title ++ "\n\n" else md
  let md := if truthy gyazoImage.metadata.desc then
    md ++ "### Description:\n" ++ gyazoImage.metadata.desc ++ "\n\n" else md
  let md := if truthy gyazoImage.metadata.app then
    md ++ "### App:\n" ++ gyazoImage.metadata.app ++ "\n\n" else md
  let md := if truthy gyazoImage.metadata.url then
    md ++ "### URL:\n" ++ gyazoImage.metadata.url ++ "\n\n" else md
  let md := if truthy (ocrDescription gyazoImage) then
    md ++ "### OCR:\n" ++ ocrDescription gyazoImage ++ "\n\n" else md
  let md := if truthy (ocrLocale gyazoImage) then
    md ++ "### Locale:\n" ++ ocrLocale gyazoImage ++ "\n\n" else md
  md

/-- The ordered list of sections of the Markdown metadata block: one
`(level-3 heading, value)` pair per present (non-empty) field, in the fixed
order title, description, app, url, OCR text, OCR locale; absent or empty
fields contribute no section. -/
def metadataSections (g : GyazoImage) : List (String × String) :=
  [("### Title:\n", g.metadata.title),
   ("### Description:\n", g.metadata.desc),
   ("### App:\n", g.metadata.app),
   ("### URL:\n", g.metadata.url),
   ("### OCR:\n", ocrDescription g),
   ("### Locale:\n", ocrLocale g)].filter (fun p => truthy p.2)

/-- One rendered section: the level-3 heading line, the field value, and a
blank line. -/
def renderSection (p : String × String) : String := p.1 ++ p.2 ++ "\n\n"

/-- Concatenation of rendered sections, in list order. -/
def concatSections (l : List (String × String)) : String :=
  (l.map renderSection).foldr (· ++ ·) ""

/-! ### JS string primitives

`String.prototype.replace` with a plain-string pattern replaces only the
first (leftmost) occurrence, and leaves the string unchanged when the pattern
does not occur.  We implement it on `List Char` and wrap it for `String`. -/

/-- Whether `p` is an initial segment of `s` (character-list version). -/
def startsWithL : List Char → List Char → Bool
  | [], _ => true
  | _ :: _, [] => false
  | p :: ps, c :: cs => p == c && startsWithL ps cs

/-- JS `s.replace(pat, repl)` for a plain-string pattern, on character
lists: replace the leftmost occurrence of `pat`, or return the list
unchanged when `pat` does not occur. -/
def replaceFirstL (pat repl : List Char) : List Char → List Char
  | [] => if pat.isEmpty then repl else []
  | c :: cs =>
      if startsWithL pat (c :: cs) then repl ++ (c :: cs).drop pat.length
      else c :: replaceFirstL pat repl cs

/-- JS `s.replace(pat, repl)` for a plain-string pattern. -/
def jsReplace (s pat repl : String) : String :=
  String.mk (replaceFirstL pat.data repl.data s.data)

/-- JS `s.includes(pat)`: whether `pat` occurs anywhere in `s`
(character-list version). -/
def containsL (pat : List Char) : List Char → Bool
  | [] => startsWithL pat []
  | c :: cs => startsWithL pat (c :: cs) || containsL pat cs

/-- JS `s.includes(pat)`. -/
def jsIncludes (s pat : String) : Bool := containsL pat.data s.data

/-! ### Resource Lister and Resource Reader identifier handling -/

/-- A resource descriptor as returned by the ListResources handler. -/
structure ResourceDescriptor where
  uri : String
  mimeType : String
  name : String
  deriving Repr, DecidableEq

/-- Embedding of the ListResources handler's response mapping
(src/index.ts lines 103-109), as a function of the upstream list of image
records: URI is the fixed scheme `gyazo-mcp:///` followed by the identifier,
MIME type is `image/` followed by the content type, and the display name is
the metadata title when truthy, else the identifier
(`gyazoImage.metadata.title || gyazoImage.image_id`). -/
def listResourcesHandler (gyazoImages : List GyazoImage) : List ResourceDescriptor :=
  gyazoImages.map (fun gyazoImage =>
    { uri := "gyazo-mcp:///" ++ gyazoImage.image_id,
      mimeType := "image/" ++ gyazoImage.type,
      name := if truthy gyazoImage.metadata.title then gyazoImage.metadata.title
              else gyazoImage.image_id })

/-- The Resource Reader's identifier recovery (src/index.ts line 142):
`url.replace("gyazo-mcp:///", "")`. -/
def stripResourceUri (url : String) : String := jsReplace url "gyazo-mcp:///" ""

/-! ### The upload tool's data-URI header parsing

src/index.ts lines 364-376 strip an optional data-URI header from the
`imageData` argument with the anchored JS regex `^data:image\/(\w+);base64,`
(`replace` with `""`, and `match` to read the captured subtype). -/

/-- The JS regex character class `\w`: `[A-Za-z0-9_]`. -/
def isWordChar (c : Char) : Bool :=
  (65 ≤ c.toNat && c.toNat ≤ 90) || (97 ≤ c.toNat && c.toNat ≤ 122) ||
    (48 ≤ c.toNat && c.toNat ≤ 57) || c == '_'

/-- Match of the anchored JS regex `^data:image\/(\w+);base64,` at the start
of a character list: the captured subtype and the remainder after the matched
text, or `none` when the regex does not match.  The greedy `\w+` takes the
maximal run of word characters; since the following `;` is not a word
character, backtracking cannot shorten the run, so the regex matches exactly
when that maximal run after `data:image/` is non-empty and is followed by
`;base64,`. -/
def dataUriMatchL (s : List Char) : Option (List Char × List Char) :=
  if startsWithL "data:image/".data s then
    let t := s.drop "data:image/".data.length
    let sub := t.takeWhile isWordChar
    let rest := t.dropWhile isWordChar
    if !sub.isEmpty && startsWithL ";base64,".data rest then
      some (sub, rest.drop ";base64,".data.length)
    else none
  else none

/-- String version of `dataUriMatchL`. -/
def dataUriMatch (s : String) : Option (String × String) :=
  match dataUriMatchL s.data with
  | some (sub, rest) => some (String.mk sub, String.mk rest)
  | none => none

/-- src/index.ts line 366:
`base64Data.replace(/^data:image\/(\w+);base64,/, "")` — the regex is
anchored, so the only possible occurrence is at the start; no match leaves
the string unchanged. -/
def stripDataUriHeader (base64Data : String) : String :=
  match dataUriMatch base64Data with
  | some (_, rest) => rest
  | none => base64Data

/-- src/index.ts lines 369-373: `imageType` defaults to `"png"` and is
overridden by the regex's first capture group when the regex matches (the
capture of `\w+` is never empty). -/
def dataUriImageType (base64Data : String) : String :=
  match dataUriMatch base64Data with
  | some (sub, _) => sub
  | none => "png"

/-! ### Base64

Models of Node's `Buffer.from(s, "base64")` and
`Buffer.prototype.toString("base64")` on well-formed data: the decoder
processes quadruples of alphabet characters (with `=` padding) and stops at
the first malformed quadruple; the encoder emits standard padded base64. -/

/-- Value of one base64 alphabet character. -/
def base64CharVal (c : Char) : Option Nat :=
  if 65 ≤ c.toNat && c.toNat ≤ 90 then some (c.toNat - 65)
  else if 97 ≤ c.toNat && c.toNat ≤ 122 then some (c.toNat - 97 + 26)
  else if 48 ≤ c.toNat && c.toNat ≤ 57 then some (c.toNat - 48 + 52)
  else if c == '+' then some 62
  else if c == '/' then some 63
  else none

/-- Base64 decoding of a character list into bytes. -/
def base64DecodeL : List Char → List Nat
  | c1 :: c2 :: c3 :: c4 :: rest =>
      match base64CharVal c1, base64CharVal c2 with
      | some v1, some v2 =>
          if c3 = '=' then [v1 * 4 + v2 / 16]
          else
            match base64CharVal c3 with
            | some v3 =>
                if c4 = '=' then [v1 * 4 + v2 / 16, (v2 % 16) * 16 + v3 / 4]
                else
                  match base64CharVal c4 with
                  | some v4 =>
                      (v1 * 4 + v2 / 16) :: ((v2 % 16) * 16 + v3 / 4) ::
                        ((v3 % 4) * 64 + v4) :: base64DecodeL rest
                  | none => []
            | none => []
      | _, _ => []
  | _ => []

/-- Model of `Buffer.from(s, "base64")` (used at src/index.ts line 376). -/
def base64Decode (s : String) : List Nat := base64DecodeL s.data

/-- One base64 alphabet character from a 6-bit value. -/
def base64Char (n : Nat) : Char :=
  if n < 26 then Char.ofNat (65 + n)
  else if n < 52 then Char.ofNat (97 + (n - 26))
  else if n < 62 then Char.ofNat (48 + (n - 52))
  else if n = 62 then '+'
  else '/'

/-- Base64 encoding of a byte list. -/
def base64EncodeL : List Nat → List Char
  | b1 :: b2 :: b3 :: rest =>
      base64Char (b1 / 4) :: base64Char ((b1 % 4) * 16 + b2 / 16) ::
        base64Char ((b2 % 16) * 4 + b3 / 64) :: base64Char (b3 % 64) ::
        base64EncodeL rest
  | [b1, b2] =>
      [base64Char (b1 / 4), base64Char ((b1 % 4) * 16 + b2 / 16),
       base64Char ((b2 % 16) * 4), '=']
  | [b1] =>
      [base64Char (b1 / 4), base64Char ((b1 % 4) * 16), '=', '=']
  | [] => []

/-- Model of `Buffer.from(bytes).toString("base64")` (src/index.ts lines
155 and 340). -/
def base64Encode (bytes : List Nat) : String := String.mk (base64EncodeL bytes)

/-! ### JSON serialization of search results

The search branch returns `JSON.stringify(contents, null, 2)` where
`contents` is an array of flat objects with seven string fields.  We model
the serialized text exactly: 2-space indentation, `"key": "value"` lines,
and JSON string escaping as `JSON.stringify` performs it (`"`, `\`, the
named control escapes, and `\u00xx` for other control characters). -/

/-- A lowercase hexadecimal digit. -/
def hexDigitChar (n : Nat) : Char :=
  Char.ofNat (if n < 10 then 48 + n else 97 + (n - 10))

/-- JSON escaping of one character, as `JSON.stringify` performs it. -/
def escapeJsonChar (c : Char) : List Char :=
  if c = '"' then ['\\', '"']
  else if c = '\\' then ['\\', '\\']
  else if c.toNat = 8 then ['\\', 'b']
  else if c = '\t' then ['\\', 't']
  else if c = '\n' then ['\\', 'n']
  else if c.toNat = 12 then ['\\', 'f']
  else if c = '\r' then ['\\', 'r']
  else if c.toNat < 32 then
    ['\\', 'u', '0', '0', hexDigitChar (c.toNat / 16), hexDigitChar (c.toNat % 16)]
  else [c]

/-- JSON escaping of a string's characters. -/
def escapeJsonString (s : String) : String :=
  String.mk (s.data.map escapeJsonChar).flatten

/-- A JSON string literal: quotes around the escaped characters. -/
def quoteJson (s : String) : String := "\"" ++ escapeJsonString s ++ "\""

/-- One flat search-result object as built by the gyazo_search handler
(src/index.ts lines 300-312): exactly the seven listed fields. -/
structure SearchEntry where
  uri : String
  mimeType : String
  permalink_url : String
  url : String
  thumb_url : String
  created_at : String
  alt_text : String
  deriving Repr, DecidableEq

/-- The mapping from an upstream search record to the flat object
(src/index.ts lines 301-311). -/
def searchEntryOf (image : SearchedGyazoImage) : SearchEntry :=
  { uri := "gyazo-mcp:///" ++ image.image_id,
    mimeType := "image/" ++ image.type,
    permalink_url := image.permalink_url,
    url := image.url,
    thumb_url := image.thumb_url,
    created_at := image.created_at,
    alt_text := image.alt_text }

/-- The ordered key/value pairs of one serialized search-result object —
the seven fields, in the declaration (insertion) order `JSON.stringify`
preserves. -/
def searchEntryFields (e : SearchEntry) : List (String × String) :=
  [("uri", e.uri), ("mimeType", e.mimeType), ("permalink_url", e.permalink_url),
   ("url", e.url), ("thumb_url", e.thumb_url), ("created_at", e.created_at),
   ("alt_text", e.alt_text)]

/-- One serialized `"key": "value"` line body. -/
def renderFieldS (p : String × String) : String :=
  quoteJson p.1 ++ ": " ++ quoteJson p.2

/-- Interposes a separator between the strings of a list (the layout
`JSON.stringify` uses between array elements and object fields). -/
def intercalateS (sep : String) : List String → String
  | [] => ""
  | [x] => x
  | x :: xs => x ++ sep ++ intercalateS sep xs

/-- The field lines of one serialized object, separated by a comma, a line
break, and the four-space field indentation. -/
def fieldsTextS (flds : List (String × String)) : String :=
  intercalateS ",\n    " (flds.map renderFieldS)

/-- One serialized object, as `JSON.stringify(-, null, 2)` lays it out as an
array element: braces indented two spaces, fields indented four. -/
def renderSearchEntry (e : SearchEntry) : String :=
  "  \x7b\n    " ++ fieldsTextS (searchEntryFields e) ++ "\n  \x7d"

/-- The serialized array elements, separated by a comma and a line break. -/
def entriesTextS (l : List SearchEntry) : String :=
  intercalateS ",\n" (l.map renderSearchEntry)

/-- `JSON.stringify(contents, null, 2)` for the array of flat search-result
objects (src/index.ts line 318). -/
def renderSearchJson (l : List SearchEntry) : String :=
  if l.isEmpty then "[]"
  else "[\n" ++ entriesTextS l ++ "\n]"

/-! ### The upstream environment and call traces

The handlers' upstream HTTP calls are embedded by passing in an `Upstream`
environment of responses and returning, alongside the protocol result, the
trace of upstream calls the handler performed, in order.  A JSON response
that can be `null`/absent is an `Option`. -/

/-- The multipart form the upload branch submits (src/index.ts lines
379-403): the synthesized file name, the file's content type, the decoded
bytes, and the optional fields that are appended only when truthy. -/
structure UploadForm where
  fileName : String
  imageType : String
  imagedata : List Nat
  title : Option String
  desc : Option String
  referer_url : Option String
  app : Option String
  deriving Repr, DecidableEq

/-- The upload endpoint's response: HTTP success flag and status, plus the
JSON body fields the handler reads. -/
structure UploadResponse where
  ok : Bool
  status : Nat
  image_id : String
  permalink_url : String
  url : String
  deriving Repr, DecidableEq

/-- One upstream call a handler can perform. -/
inductive UpstreamCall where
  | listImages (page : Nat) (perPage : Nat)
  | getImage (id : String)
  | search (query : String) (page : Int) (per : Int)
  | fetchImageBytes (url : String)
  | upload (form : UploadForm)
  deriving Repr, DecidableEq

/-- Upstream responses, as functions of the request parameters, plus the
clock read by `Date.now()`. -/
structure Upstream where
  listImages : Nat → Nat → Option (List GyazoImage)
  getImage : String → Option GyazoImage
  search : String → Int → Int → Option (List SearchedGyazoImage)
  fetchImageBytes : String → List Nat
  upload : UploadForm → UploadResponse
  now : Nat

/-! ### The Resource Reader handler -/

/-- One item of a ReadResource response: a binary part (`blob`) or a text
part, both tagged with a URI and a MIME type. -/
inductive ResourceContent where
  | blobPart (uri : String) (mimeType : String) (blob : String)
  | textPart (uri : String) (mimeType : String) (text : String)
  deriving Repr, DecidableEq

/-- Embedding of the ReadResource handler (src/index.ts lines 139-181).
The identifier is recovered by `replace`, the record is fetched by
identifier; a null/absent record raises `Image <id> not found` (the
handler's catch block logs and re-raises the same message, so the
observable error is unchanged); otherwise the record's direct-content URL
is fetched, the bytes are base64-encoded, and two content parts tagged
with the original request URI are returned. -/
def readResourceHandler (env : Upstream) (uri : String) :
    Except String (List ResourceContent) × List UpstreamCall :=
  let id := stripResourceUri uri
  match env.getImage id with
  | none => (.error ("Image " ++ id ++ " not found"), [.getImage id])
  | some gyazoImage =>
      let imageBase64 := base64Encode (env.fetchImageBytes gyazoImage.url)
      (.ok [.blobPart uri ("image/" ++ gyazoImage.type) imageBase64,
            .textPart uri "text/plain" (getImageMetadataMarkdown gyazoImage)],
       [.getImage id, .fetchImageBytes gyazoImage.url])

/-! ### The Tool Invoker handler -/

/-- A JS argument value, as far as the handler's `typeof` checks can
distinguish it: a string, a number, or anything else. -/
inductive JsArg where
  | str (s : String)
  | num (n : Int)
  | other
  deriving Repr, DecidableEq

/-- The `arguments` object of a call-tool request.  `query`, `page`, `per`
and `imageData` are `typeof`-checked by the handler, so they carry a
`JsArg`; the upload-only extras are declared as strings in the input schema
and are only truthiness-tested, so they are optional strings. -/
structure ToolArguments where
  query : Option JsArg
  page : Option JsArg
  per : Option JsArg
  imageData : Option JsArg
  title : Option String
  description : Option String
  refererUrl : Option String
  app : Option String
  deriving Repr, DecidableEq

/-- A `ToolArguments` with every field absent. -/
def noArguments : ToolArguments :=
  { query := none, page := none, per := none, imageData := none,
    title := none, description := none, refererUrl := none, app := none }

/-- One item of a call-tool response. -/
inductive ToolContent where
  | text (t : String)
  | image (data : String) (mimeType : String)
  deriving Repr, DecidableEq

/-- src/index.ts line 280: `typeof page === "number" ? page : 1`. -/
def searchPageArg (args : ToolArguments) : Int :=
  match args.page with
  | some (JsArg.num p) => p
  | _ => 1

/-- src/index.ts line 281: `typeof per === "number" ? per : 20`. -/
def searchPerArg (args : ToolArguments) : Int :=
  match args.per with
  | some (JsArg.num p) => p
  | _ => 20

/-- JS `if (x) formData.append(key, String(x))` for an optional string
argument: the form field is present exactly when the argument is truthy. -/
def truthyField (o : Option String) : Option String :=
  match o with
  | some t => if truthy t then some t else none
  | none => none

/-- Embedding of the CallTool handler (src/index.ts lines 269-436): an
if/else chain on the tool name over the three tools, with a final
`Tool <name> not found` failure.  Each branch returns the protocol result
(or thrown error message) together with the ordered trace of upstream
calls it performed. -/
def callToolHandler (env : Upstream) (name : String)
    (arguments : Option ToolArguments) :
    Except String (List ToolContent) × List UpstreamCall :=
  if name = "gyazo_search" then
    match arguments with
    | none =>
        (.error "Invalid search arguments: query is required and must be a string", [])
    | some args =>
        match args.query with
        | some (JsArg.str query) =>
            let page := searchPageArg args
            let per := searchPerArg args
            match env.search query page per with
            | none => (.ok [.text "No images found"], [.search query page per])
            | some images =>
                if images.isEmpty then
                  (.ok [.text "No images found"], [.search query page per])
                else
                  (.ok [.text (renderSearchJson (images.map searchEntryOf))],
                   [.search query page per])
        | _ =>
            (.error "Invalid search arguments: query is required and must be a string", [])
  else if name = "gyazo_latest_image" then
    match env.listImages 1 1 with
    | none => (.error "Image not found", [.listImages 1 1])
    | some [] => (.error "Image not found", [.listImages 1 1])
    | some (image :: _) =>
        let imageBase64 := base64Encode (env.fetchImageBytes image.url)
        (.ok [.image imageBase64 ("image/" ++ image.type),
              .text (getImageMetadataMarkdown image)],
         [.listImages 1 1, .fetchImageBytes image.url])
  else if name = "gyazo_upload" then
    match arguments with
    | none =>
        (.error "Invalid upload arguments: imageData is required and must be a string", [])
    | some args =>
        match args.imageData with
        | some (JsArg.str base64Data) =>
            let base64Image := stripDataUriHeader base64Data
            let imageType := dataUriImageType base64Data
            let imageBuffer := base64Decode base64Image
            let fileName := "screenshot_" ++ toString env.now ++ "." ++ imageType
            let form : UploadForm :=
              { fileName := fileName, imageType := imageType,
                imagedata := imageBuffer,
                title := truthyField args.title,
                desc := truthyField args.description,
                referer_url := truthyField args.refererUrl,
                app := truthyField args.app }
            let response := env.upload form
            if !response.ok then
              (.error ("Upload failed: Upload failed with status: " ++
                 toString response.status), [.upload form])
            else
              (.ok [.text ("Image successfully uploaded to Gyazo!\n\nPermalink URL: " ++
                     response.permalink_url ++ "\nImage URL: " ++ response.url ++
                     "\nImage ID: " ++ response.image_id)],
               [.upload form])
        | _ =>
            (.error "Invalid upload arguments: imageData is required and must be a string", [])
  else
    (.error ("Tool " ++ name ++ " not found"), [])

/-- An upstream environment whose every response is empty, for concrete
instantiations. -/
def emptyUpstream : Upstream :=
  { listImages := fun _ _ => none,
    getImage := fun _ => none,
    search := fun _ _ _ => none,
    fetchImageBytes := fun _ => [],
    upload := fun _ =>
      { ok := false, status := 400, image_id := "", permalink_url := "", url := "" },
    now := 0 }

/-! ### Reading the serialized search payload back

To state that the search payload, when parsed as JSON, is exactly the array
of flat objects, we give a reader for the serialized form — JSON string
unescaping included — and prove the round trip on every entry list. -/

/-- Value of a hexadecimal digit character. -/
def hexVal (c : Char) : Option Nat :=
  if 48 ≤ c.toNat && c.toNat ≤ 57 then some (c.toNat - 48)
  else if 97 ≤ c.toNat && c.toNat ≤ 102 then some (c.toNat - 97 + 10)
  else if 65 ≤ c.toNat && c.toNat ≤ 70 then some (c.toNat - 65 + 10)
  else none

/-- The character named by a JSON single-character escape. -/
def jsonUnescapeChar (e : Char) : Option Char :=
  if e = '"' then some '"'
  else if e = '\\' then some '\\'
  else if e = '/' then some '/'
  else if e = 'b' then some (Char.ofNat 8)
  else if e = 'f' then some (Char.ofNat 12)
  else if e = 'n' then some '\n'
  else if e = 'r' then some '\r'
  else if e = 't' then some '\t'
  else none

/-- Reads one JSON escape sequence (after the backslash): either `u` and
four hexadecimal digits, or a single-character escape. -/
def readEscape : List Char → Option (Char × List Char)
  | [] => none
  | e :: r2 =>
      if e = 'u' then
        match r2 with
        | h1 :: h2 :: h3 :: h4 :: r3 =>
            match hexVal h1, hexVal h2, hexVal h3, hexVal h4 with
            | some v1, some v2, some v3, some v4 =>
                some (Char.ofNat (((v1 * 16 + v2) * 16 + v3) * 16 + v4), r3)
            | _, _, _, _ => none
        | _ => none
      else
        match jsonUnescapeChar e with
        | some c2 => some (c2, r2)
        | none => none

/-- Reads a JSON string body up to its closing quote, undoing escapes;
returns the content characters and the remaining input.  The fuel argument
bounds the recursion; callers pass the input length, which always
suffices since every step consumes at least one character. -/
def parseJsonStringBody : Nat → List Char → Option (List Char × List Char)
  | 0, _ => none
  | _ + 1, [] => none
  | fuel + 1, c :: r =>
      if c = '"' then some ([], r)
      else if c = '\\' then
        match readEscape r with
        | some (c2, r2) => (parseJsonStringBody fuel r2).map (fun p => (c2 :: p.1, p.2))
        | none => none
      else (parseJsonStringBody fuel r).map (fun p => (c :: p.1, p.2))

/-- Consumes an expected literal at the start of the input. -/
def expectLit (pat s : List Char) : Option (List Char) :=
  if startsWithL pat s then some (s.drop pat.length) else none

/-- Reads one `"key": "value"` field. -/
def parseField (s : List Char) : Option ((String × String) × List Char) :=
  match expectLit ['"'] s with
  | none => none
  | some s1 =>
      match parseJsonStringBody s1.length s1 with
      | none => none
      | some (k, s2) =>
          match expectLit [':', ' ', '"'] s2 with
          | none => none
          | some s3 =>
              match parseJsonStringBody s3.length s3 with
              | none => none
              | some (v, s4) => some ((String.mk k, String.mk v), s4)

/-- Reads one or more fields separated by the four-space field layout. -/
def parseFieldsAux : Nat → List Char → Option (List (String × String) × List Char)
  | 0, _ => none
  | fuel + 1, s =>
      match parseField s with
      | none => none
      | some (kv, r) =>
          if startsWithL ",\n    ".data r then
            match parseFieldsAux fuel (r.drop ",\n    ".data.length) with
            | some (kvs, r2) => some (kv :: kvs, r2)
            | none => none
          else some ([kv], r)

/-- Reads one serialized object in the two-space array-element layout. -/
def parseEntry (s : List Char) : Option (List (String × String) × List Char) :=
  match expectLit "  \x7b\n    ".data s with
  | none => none
  | some r =>
      match parseFieldsAux r.length r with
      | none => none
      | some (flds, r2) =>
          match expectLit "\n  \x7d".data r2 with
          | none => none
          | some r3 => some (flds, r3)

/-- Reads one or more serialized objects separated by a comma and a line
break. -/
def parseEntriesAux : Nat → List Char → Option (List (List (String × String)) × List Char)
  | 0, _ => none
  | fuel + 1, s =>
      match parseEntry s with
      | none => none
      | some (entry, r) =>
          if startsWithL ",\n".data r then
            match parseEntriesAux fuel (r.drop ",\n".data.length) with
            | some (es, r2) => some (entry :: es, r2)
            | none => none
          else some ([entry], r)

/-- Reads a whole serialized search payload: the empty array, or a
bracketed, newline-separated sequence of objects, each an ordered list of
string-valued fields. -/
def parseSearchJson (s : String) : Option (List (List (String × String))) :=
  if s == "[]" then some []
  else
    match expectLit "[\n".data s.data with
    | none => none
    | some r =>
        match parseEntriesAux r.length r with
        | none => none
        | some (es, r2) => if r2 == ("\n]" : String).data then some es else none

/-! ### Claim theorems about the handlers -/

/-- An arguments object carrying only a search query `"cat"`. -/
def exampleSearchArgs : ToolArguments :=
  { noArguments with query := some (JsArg.str "cat") }

/-- A concrete search-result record. -/
def exampleSearchedImage : SearchedGyazoImage :=
  { image_id := "img1", permalink_url := "https://gyazo.com/img1",
    url := "https://i.gyazo.com/img1.png", access_policy := none,
    type := "png", thumb_url := "https://thumb.gyazo.com/img1",
    created_at := "2024-01-01T00:00:00+0000", alt_text := "an image" }

/-- An upstream environment whose search call returns one record. -/
def oneImageUpstream : Upstream :=
  { emptyUpstream with search := fun _ _ _ => some [exampleSearchedImage] }

/-! ### Theorems -/

theorem concatSections_append (l₁ l₂ : List (String × String)) :
    concatSections (l₁ ++ l₂) = concatSections l₁ ++ concatSections l₂ := by
  induction l₁ with
  | nil => simp [concatSections]
  | cons a t ih =>
      simp only [concatSections, List.map_cons, List.foldr_cons, List.cons_append,
        List.map_append] at *
      rw [ih, String.append_assoc]

theorem markdown_eq_concatSections (g : GyazoImage) :
    getImageMetadataMarkdown g = concatSections (metadataSections g) := by
  unfold getImageMetadataMarkdown metadataSections
  cases h1 : truthy g.metadata.title <;>
    cases h2 : truthy g.metadata.desc <;>
    cases h3 : truthy g.metadata.app <;>
    cases h4 : truthy g.metadata.url <;>
    cases h5 : truthy (ocrDescription g) <;>
    cases h6 : truthy (ocrLocale g) <;>
    simp only [h1, h2, h3, h4, h5, h6, concatSections, renderSection,
      List.filter, List.map, List.foldr, Bool.false_eq_true, if_false, if_true,
      String.append_assoc, String.append_empty, String.empty_append,
      cond_false, cond_true]

/-- C1: the Markdown metadata block of a record is exactly the concatenation
of one rendered section per present non-empty field — level-3 heading, value,
blank line — in the fixed order title, description, app, url, OCR text, OCR
locale (and nothing for absent/empty fields); and concatenating the blocks of
two records is the concatenation of the first record's sections followed by
the second record's sections, so sections never interleave. -/
theorem markdown_block_spec (g g' : GyazoImage) :
    getImageMetadataMarkdown g = concatSections (metadataSections g) ∧
    getImageMetadataMarkdown g ++ getImageMetadataMarkdown g' =
      concatSections (metadataSections g ++ metadataSections g') := by
  refine ⟨markdown_eq_concatSections g, ?_⟩
  rw [concatSections_append, markdown_eq_concatSections g,
    markdown_eq_concatSections g']

theorem startsWithL_self_append (p t : List Char) :
    startsWithL p (p ++ t) = true := by
  induction p with
  | nil => simp [startsWithL]
  | cons c cs ih => simp [startsWithL, ih]

theorem replaceFirstL_self_append (pat repl t : List Char) :
    replaceFirstL pat repl (pat ++ t) = repl ++ t := by
  cases pat with
  | nil =>
      cases t with
      | nil => simp [replaceFirstL]
      | cons c cs => simp [replaceFirstL, startsWithL]
  | cons p ps =>
      have h := startsWithL_self_append (p :: ps) t
      simp only [List.cons_append] at h ⊢
      rw [replaceFirstL, if_pos h]
      simp only [← List.cons_append, List.drop_left]

theorem replaceFirstL_of_not_contains (pat repl : List Char) (s : List Char)
    (h : containsL pat s = false) : replaceFirstL pat repl s = s := by
  induction s with
  | nil =>
      rw [containsL] at h
      rw [replaceFirstL]
      cases hp : pat with
      | nil => rw [hp] at h; simp [startsWithL] at h
      | cons c cs => simp [List.isEmpty]
  | cons c cs ih =>
      rw [containsL, Bool.or_eq_false_iff] at h
      rw [replaceFirstL, if_neg (by simp [h.1]), ih h.2]

/-- C3: the lister builds every resource URI as the fixed scheme string
followed by the record's identifier, and the reader's stripping of such a
constructed URI recovers exactly the original identifier:
`strip(construct(id)) = id` for every identifier string. -/
theorem uri_construct_strip_roundtrip (images : List GyazoImage) (id : String) :
    (listResourcesHandler images).map ResourceDescriptor.uri
      = images.map (fun g => "gyazo-mcp:///" ++ g.image_id) ∧
    stripResourceUri ("gyazo-mcp:///" ++ id) = id := by
  constructor
  · simp [listResourcesHandler]
  · show String.mk
      (replaceFirstL "gyazo-mcp:///".data "".data ("gyazo-mcp:///" ++ id).data) = id
    rw [String.data_append, replaceFirstL_self_append]
    have h0 : ("" : String).data = [] := rfl
    rw [h0, List.nil_append]

theorem hexVal_hexDigitChar : ∀ n < 16, hexVal (hexDigitChar n) = some n := by decide

theorem expectLit_self_append (pat r : List Char) :
    expectLit pat (pat ++ r) = some r := by
  simp [expectLit, startsWithL_self_append, List.drop_left]

theorem expectLit_quote (r : List Char) : expectLit ['"'] ('"' :: r) = some r := by
  simp [expectLit, startsWithL]

theorem expectLit_colon_quote (r : List Char) :
    expectLit [':', ' ', '"'] (':' :: ' ' :: '"' :: r) = some r := by
  simp [expectLit, startsWithL]

theorem parseJsonStringBody_escape (cs : List Char) :
    ∀ (rest : List Char) (fuel : Nat), cs.length < fuel →
      parseJsonStringBody fuel ((cs.map escapeJsonChar).flatten ++ ('"' :: rest)) =
        some (cs, rest) := by
  induction cs with
  | nil =>
      intro rest fuel hfuel
      cases fuel with
      | zero => omega
      | succ f =>
          simp only [List.map_nil, List.flatten_nil, List.nil_append]
          rw [parseJsonStringBody]
          simp
  | cons c cs ih =>
      intro rest fuel hfuel
      cases fuel with
      | zero => omega
      | succ f =>
          have ih' := ih rest f (by simp only [List.length_cons] at hfuel; omega)
          simp only [List.map_cons, List.flatten_cons, List.append_assoc]
          by_cases h1 : c = '"'
          · subst h1
            simp only [escapeJsonChar, if_pos, List.cons_append, List.nil_append]
            rw [parseJsonStringBody]
            simp [readEscape, jsonUnescapeChar, ih']
          · by_cases h2 : c = '\\'
            · subst h2
              simp only [escapeJsonChar, if_pos, if_neg h1, List.cons_append, List.nil_append]
              rw [parseJsonStringBody]
              simp [readEscape, jsonUnescapeChar, ih']
            · by_cases h3 : c.toNat = 8
              · have hc : c = Char.ofNat 8 := by rw [← h3, Char.ofNat_toNat]
                simp only [escapeJsonChar, if_neg h1, if_neg h2, h3, if_pos,
                  List.cons_append, List.nil_append]
                rw [parseJsonStringBody]
                simp [readEscape, jsonUnescapeChar, ih', hc]
              · by_cases h4 : c = '\t'
                · subst h4
                  simp only [escapeJsonChar, if_neg h1, if_neg h2, if_neg h3, if_pos,
                    List.cons_append, List.nil_append]
                  rw [parseJsonStringBody]
                  simp [readEscape, jsonUnescapeChar, ih']
                · by_cases h5 : c = '\n'
                  · subst h5
                    simp only [escapeJsonChar, if_neg h1, if_neg h2, if_neg h3, if_neg h4,
                      if_pos, List.cons_append, List.nil_append]
                    rw [parseJsonStringBody]
                    simp [readEscape, jsonUnescapeChar, ih']
                  · by_cases h6 : c.toNat = 12
                    · have hc : c = Char.ofNat 12 := by rw [← h6, Char.ofNat_toNat]
                      simp only [escapeJsonChar, if_neg h1, if_neg h2, if_neg h3, if_neg h4,
                        if_neg h5, h6, if_pos, List.cons_append, List.nil_append]
                      rw [parseJsonStringBody.eq_def]
                      simp [readEscape, jsonUnescapeChar, ih', hc]
                    · by_cases h7 : c = '\r'
                      · subst h7
                        simp only [escapeJsonChar, if_neg h1, if_neg h2, if_neg h3, if_neg h4,
                          if_neg h5, if_neg h6, if_pos, List.cons_append, List.nil_append]
                        rw [parseJsonStringBody]
                        simp [readEscape, jsonUnescapeChar, ih']
                      · by_cases h8 : c.toNat < 32
                        · simp only [escapeJsonChar, if_neg h1, if_neg h2, if_neg h3,
                            if_neg h4, if_neg h5, if_neg h6, if_neg h7, if_pos h8,
                            List.cons_append, List.nil_append]
                          rw [parseJsonStringBody]
                          have hv1 : hexVal (hexDigitChar (c.toNat / 16))
                              = some (c.toNat / 16) :=
                            hexVal_hexDigitChar _ (by omega)
                          have hv2 : hexVal (hexDigitChar (c.toNat % 16))
                              = some (c.toNat % 16) :=
                            hexVal_hexDigitChar _ (Nat.mod_lt _ (by omega))
                          have hre2 : readEscape ('u' :: '0' :: '0' ::
                              hexDigitChar (c.toNat / 16) :: hexDigitChar (c.toNat % 16) ::
                              ((cs.map escapeJsonChar).flatten ++ '"' :: rest)) =
                              some (c, (cs.map escapeJsonChar).flatten ++ '"' :: rest) := by
                            simp [readEscape, show hexVal '0' = some 0 from rfl, hv1, hv2]
                            have harith : c.toNat / 16 * 16 + c.toNat % 16 = c.toNat := by
                              omega
                            rw [harith, Char.ofNat_toNat]
                          simp [hre2, ih']
                        · simp only [escapeJsonChar, if_neg h1, if_neg h2, if_neg h3,
                            if_neg h4, if_neg h5, if_neg h6, if_neg h7, if_neg h8,
                            List.cons_append, List.nil_append]
                          rw [parseJsonStringBody]
                          simp [h1, h2, ih']

theorem escapeJsonChar_length_pos (c : Char) : 1 ≤ (escapeJsonChar c).length := by
  simp only [escapeJsonChar]
  split_ifs <;> simp

theorem escaped_flatten_length (cs : List Char) :
    cs.length ≤ ((cs.map escapeJsonChar).flatten).length := by
  induction cs with
  | nil => simp
  | cons c cs ih =>
      simp only [List.map_cons, List.flatten_cons, List.length_append, List.length_cons]
      have := escapeJsonChar_length_pos c
      omega

theorem parseField_render (k v : String) (rest : List Char) :
    parseField ((renderFieldS (k, v)).data ++ rest) = some ((k, v), rest) := by
  have hdata : (renderFieldS (k, v)).data ++ rest =
      '"' :: ((k.data.map escapeJsonChar).flatten ++
        ('"' :: (':' :: ' ' :: '"' :: ((v.data.map escapeJsonChar).flatten ++
          ('"' :: rest))))) := by
    simp [renderFieldS, quoteJson, escapeJsonString, String.data_append,
      show ("\"" : String).data = ['"'] from rfl,
      show (": " : String).data = [':', ' '] from rfl,
      List.append_assoc, List.cons_append, List.nil_append]
  have hkb := parseJsonStringBody_escape k.data
    (':' :: ' ' :: '"' :: ((v.data.map escapeJsonChar).flatten ++ ('"' :: rest)))
    ((k.data.map escapeJsonChar).flatten ++
      ('"' :: (':' :: ' ' :: '"' :: ((v.data.map escapeJsonChar).flatten ++
        ('"' :: rest))))).length
    (by
      simp only [List.length_append, List.length_cons]
      have := escaped_flatten_length k.data
      omega)
  have hvb := parseJsonStringBody_escape v.data rest
    ((v.data.map escapeJsonChar).flatten ++ ('"' :: rest)).length
    (by
      simp only [List.length_append, List.length_cons]
      have := escaped_flatten_length v.data
      omega)
  rw [hdata]
  unfold parseField
  rw [expectLit_quote]
  simp only []
  rw [hkb]
  simp only []
  rw [expectLit_colon_quote]
  simp only []
  rw [hvb]

theorem renderFieldS_length_pos (p : String × String) :
    1 ≤ (renderFieldS p).data.length := by
  obtain ⟨k, v⟩ := p
  simp [renderFieldS, quoteJson, String.data_append,
    show ("\"" : String).data = ['"'] from rfl]

theorem fieldsTextS_length (flds : List (String × String)) :
    flds.length ≤ (fieldsTextS flds).data.length := by
  induction flds with
  | nil => simp
  | cons p flds ih =>
      cases flds with
      | nil =>
          simp only [fieldsTextS, List.map_cons, List.map_nil, intercalateS,
            List.length_cons, List.length_nil]
          have := renderFieldS_length_pos p
          omega
      | cons q flds2 =>
          simp only [fieldsTextS, List.map_cons, intercalateS,
            List.length_cons, String.data_append, List.length_append] at *
          have := renderFieldS_length_pos p
          omega

theorem parseFieldsAux_render (flds : List (String × String)) :
    ∀ (k v : String) (rest : List Char) (fuel : Nat),
      startsWithL ",\n    ".data rest = false →
      flds.length < fuel →
      parseFieldsAux fuel ((fieldsTextS ((k, v) :: flds)).data ++ rest) =
        some ((k, v) :: flds, rest) := by
  induction flds with
  | nil =>
      intro k v rest fuel hsw hfuel
      cases fuel with
      | zero => omega
      | succ f =>
          simp only [fieldsTextS, List.map_cons, List.map_nil, intercalateS]
          rw [parseFieldsAux]
          rw [parseField_render k v rest]
          simp [hsw]
  | cons p flds ih =>
      intro k v rest fuel hsw hfuel
      cases fuel with
      | zero => omega
      | succ f =>
          obtain ⟨k2, v2⟩ := p
          have hdata : (fieldsTextS ((k, v) :: (k2, v2) :: flds)).data ++ rest =
              (renderFieldS (k, v)).data ++ ((",\n    " : String).data ++
                ((fieldsTextS ((k2, v2) :: flds)).data ++ rest)) := by
            simp [fieldsTextS, intercalateS, String.data_append, List.append_assoc]
          rw [hdata, parseFieldsAux, parseField_render]
          simp only [startsWithL_self_append, List.drop_left, if_true]
          rw [ih k2 v2 rest f hsw (by simp at hfuel ⊢; omega)]

theorem parseEntry_render (e : SearchEntry) (rest : List Char) :
    parseEntry ((renderSearchEntry e).data ++ rest) = some (searchEntryFields e, rest) := by
  have hdata : (renderSearchEntry e).data ++ rest =
      ("  \x7b\n    " : String).data ++ ((fieldsTextS (searchEntryFields e)).data ++
        (("\n  \x7d" : String).data ++ rest)) := by
    simp [renderSearchEntry, String.data_append, List.append_assoc]
  have hsw : startsWithL ",\n    ".data
      (("\n  \x7d" : String).data ++ rest) = false := by
    simp [startsWithL, show ("\n  \x7d" : String).data = ['\n', ' ', ' ', '\x7d'] from rfl,
      show (",\n    " : String).data = [',', '\n', ' ', ' ', ' ', ' '] from rfl]
  have hlen : (searchEntryFields e).length ≤
      (fieldsTextS (searchEntryFields e)).data.length := fieldsTextS_length _
  rw [hdata]
  unfold parseEntry
  rw [expectLit_self_append]
  have hflds : searchEntryFields e = ("uri", e.uri) :: [("mimeType", e.mimeType),
      ("permalink_url", e.permalink_url), ("url", e.url), ("thumb_url", e.thumb_url),
      ("created_at", e.created_at), ("alt_text", e.alt_text)] := rfl
  rw [hflds] at hlen ⊢
  simp only []
  rw [parseFieldsAux_render _ _ _ _ _ hsw (by
    simp only [List.length_append, List.length_cons] at hlen ⊢
    omega)]
  simp only []
  rw [expectLit_self_append]

theorem renderSearchEntry_length_pos (e : SearchEntry) :
    1 ≤ (renderSearchEntry e).data.length := by
  simp [renderSearchEntry, String.data_append]

theorem entriesTextS_length (l : List SearchEntry) :
    l.length ≤ (entriesTextS l).data.length := by
  induction l with
  | nil => simp
  | cons e l ih =>
      cases l with
      | nil =>
          simp only [entriesTextS, List.map_cons, List.map_nil, intercalateS,
            List.length_cons, List.length_nil]
          have := renderSearchEntry_length_pos e
          omega
      | cons e2 l2 =>
          simp only [entriesTextS, List.map_cons, intercalateS,
            List.length_cons, String.data_append, List.length_append] at *
          have := renderSearchEntry_length_pos e
          omega

theorem parseEntriesAux_render (l : List SearchEntry) :
    ∀ (e : SearchEntry) (rest : List Char) (fuel : Nat),
      startsWithL ",\n".data rest = false →
      l.length < fuel →
      parseEntriesAux fuel ((entriesTextS (e :: l)).data ++ rest) =
        some ((e :: l).map searchEntryFields, rest) := by
  induction l with
  | nil =>
      intro e rest fuel hsw hfuel
      cases fuel with
      | zero => omega
      | succ f =>
          simp only [entriesTextS, List.map_cons, List.map_nil, intercalateS]
          rw [parseEntriesAux, parseEntry_render e rest]
          simp [hsw]
  | cons e2 l ih =>
      intro e rest fuel hsw hfuel
      cases fuel with
      | zero => omega
      | succ f =>
          have hdata : (entriesTextS (e :: e2 :: l)).data ++ rest =
              (renderSearchEntry e).data ++ ((",\n" : String).data ++
                ((entriesTextS (e2 :: l)).data ++ rest)) := by
            simp [entriesTextS, intercalateS, String.data_append, List.append_assoc]
          rw [hdata, parseEntriesAux, parseEntry_render]
          simp only [startsWithL_self_append, List.drop_left, if_true]
          rw [ih e2 rest f hsw (by simp at hfuel ⊢; omega)]
          simp

theorem parseSearchJson_render (l : List SearchEntry) :
    parseSearchJson (renderSearchJson l) = some (l.map searchEntryFields) := by
  cases l with
  | nil => simp [renderSearchJson, parseSearchJson]
  | cons e es =>
      have hne : ("[\n" ++ entriesTextS (e :: es) ++ "\n]") ≠ "[]" := by
        intro h
        have hd := congrArg String.data h
        simp only [String.data_append,
          show ("[\n" : String).data = ['[', '\n'] from rfl,
          show ("[]" : String).data = ['[', ']'] from rfl,
          show ("\n]" : String).data = ['\n', ']'] from rfl,
          List.cons_append, List.nil_append, List.cons.injEq] at hd
        exact absurd hd.2.1 (by decide)
      have hdata : ("[\n" ++ entriesTextS (e :: es) ++ "\n]").data =
          ("[\n" : String).data ++ ((entriesTextS (e :: es)).data ++
            ("\n]" : String).data) := by
        simp [String.data_append, List.append_assoc]
      have hsw : startsWithL ",\n".data (("\n]" : String).data) = false := by
        simp [startsWithL, show ("\n]" : String).data = ['\n', ']'] from rfl,
          show (",\n" : String).data = [',', '\n'] from rfl]
      have hlen := entriesTextS_length (e :: es)
      simp only [renderSearchJson, List.isEmpty_cons, if_false, Bool.false_eq_true]
      rw [parseSearchJson, if_neg (by simp [hne]), hdata, expectLit_self_append]
      simp only []
      rw [parseEntriesAux_render es e _ _ hsw (by
        simp only [List.length_append, List.length_cons] at hlen ⊢
        omega)]
      simp

/-- C4: whenever the upstream search response is absent (null) or an empty
sequence, the gyazo_search tool returns a successful result whose content is
exactly one text part reading `No images found`; no error is raised. -/
theorem search_empty_is_no_images_found (env : Upstream) (args : ToolArguments)
    (query : String) (hq : args.query = some (JsArg.str query))
    (h : env.search query (searchPageArg args) (searchPerArg args) = none ∨
         env.search query (searchPageArg args) (searchPerArg args) = some []) :
    callToolHandler env "gyazo_search" (some args) =
      (.ok [.text "No images found"],
       [.search query (searchPageArg args) (searchPerArg args)]) := by
  rcases h with h | h <;> simp [callToolHandler, hq, h]

/-- Witness for C4 at a concrete environment and query. -/
theorem search_empty_is_no_images_found_witness :
    callToolHandler emptyUpstream "gyazo_search" (some exampleSearchArgs) =
      (.ok [.text "No images found"], [.search "cat" 1 20]) :=
  search_empty_is_no_images_found emptyUpstream exampleSearchArgs "cat" rfl (Or.inl rfl)

/-- C5: with a non-empty upstream search response of N records, gyazo_search
returns exactly one text content part; its text is the 2-space-indented JSON
serialization of the array of flat objects obtained from the records, and
reading that text back yields exactly one object per record, in upstream
order, each carrying exactly the seven fields uri (scheme + identifier),
mimeType (`image/` + content type), permalink_url, url, thumb_url,
created_at and alt_text of the corresponding record. -/
theorem search_results_payload (env : Upstream) (args : ToolArguments)
    (query : String) (images : List SearchedGyazoImage)
    (hq : args.query = some (JsArg.str query))
    (himg : env.search query (searchPageArg args) (searchPerArg args) = some images)
    (hne : images ≠ []) :
    callToolHandler env "gyazo_search" (some args) =
      (.ok [.text (renderSearchJson (images.map searchEntryOf))],
       [.search query (searchPageArg args) (searchPerArg args)]) ∧
    parseSearchJson (renderSearchJson (images.map searchEntryOf)) =
      some (images.map (fun image => searchEntryFields (searchEntryOf image))) ∧
    (images.map searchEntryOf).length = images.length ∧
    ∀ image : SearchedGyazoImage, searchEntryFields (searchEntryOf image) =
      [("uri", "gyazo-mcp:///" ++ image.image_id),
       ("mimeType", "image/" ++ image.type),
       ("permalink_url", image.permalink_url),
       ("url", image.url),
       ("thumb_url", image.thumb_url),
       ("created_at", image.created_at),
       ("alt_text", image.alt_text)] := by
  have hie : images.isEmpty = false := by
    cases images with
    | nil => cases hne rfl
    | cons i l => rfl
  refine ⟨?_, ?_, by simp, fun image => rfl⟩
  · simp [callToolHandler, hq, himg, hie]
  · rw [parseSearchJson_render]
    simp [List.map_map, Function.comp]

/-- Witness for C5 at a concrete environment with one search result. -/
theorem search_results_payload_witness :
    callToolHandler oneImageUpstream "gyazo_search" (some exampleSearchArgs) =
      (.ok [.text (renderSearchJson [searchEntryOf exampleSearchedImage])],
       [.search "cat" 1 20]) ∧
    parseSearchJson (renderSearchJson [searchEntryOf exampleSearchedImage]) =
      some [searchEntryFields (searchEntryOf exampleSearchedImage)] ∧
    ([exampleSearchedImage].map searchEntryOf).length = 1 ∧
    ∀ image : SearchedGyazoImage, searchEntryFields (searchEntryOf image) =
      [("uri", "gyazo-mcp:///" ++ image.image_id),
       ("mimeType", "image/" ++ image.type),
       ("permalink_url", image.permalink_url),
       ("url", image.url),
       ("thumb_url", image.thumb_url),
       ("created_at", image.created_at),
       ("alt_text", image.alt_text)] :=
  search_results_payload oneImageUpstream exampleSearchArgs "cat"
    [exampleSearchedImage] rfl rfl (List.cons_ne_nil _ _)

/-- C6: when the upstream identifier fetch returns no record, the Resource
Reader fails with the NotFound message naming the stripped identifier, and
its upstream-call trace consists of the identifier fetch alone — the second
fetch for the image bytes is never issued. -/
theorem read_missing_image_not_found (env : Upstream) (uri : String)
    (h : env.getImage (stripResourceUri uri) = none) :
    readResourceHandler env uri =
      (.error ("Image " ++ stripResourceUri uri ++ " not found"),
       [.getImage (stripResourceUri uri)]) := by
  simp [readResourceHandler, h]

/-- Witness for C6 at a concrete environment and URI. -/
theorem read_missing_image_not_found_witness :
    readResourceHandler emptyUpstream "gyazo-mcp:///abc123" =
      (.error "Image abc123 not found", [.getImage "abc123"]) :=
  read_missing_image_not_found emptyUpstream "gyazo-mcp:///abc123" rfl

/-- C7: when the upstream list call (page 1, page size 1) returns an absent
or empty sequence, gyazo_latest_image fails with the NotFound message and
its trace consists of the list call alone — no direct-content bytes fetch is
performed. -/
theorem latest_image_empty_not_found (env : Upstream)
    (arguments : Option ToolArguments)
    (h : env.listImages 1 1 = none ∨ env.listImages 1 1 = some []) :
    callToolHandler env "gyazo_latest_image" arguments =
      (.error "Image not found", [.listImages 1 1]) := by
  rcases h with h | h <;> simp [callToolHandler, h]

/-- Witness for C7 at a concrete environment. -/
theorem latest_image_empty_not_found_witness :
    callToolHandler emptyUpstream "gyazo_latest_image" none =
      (.error "Image not found", [.listImages 1 1]) :=
  latest_image_empty_not_found emptyUpstream none (Or.inl rfl)

/-- C8: a call-tool request whose name is none of gyazo_search,
gyazo_latest_image, gyazo_upload fails with the Unsupported message naming
the requested tool, with an empty upstream-call trace. -/
theorem unknown_tool_not_found (env : Upstream) (name : String)
    (arguments : Option ToolArguments)
    (h1 : name ≠ "gyazo_search") (h2 : name ≠ "gyazo_latest_image")
    (h3 : name ≠ "gyazo_upload") :
    callToolHandler env name arguments =
      (.error ("Tool " ++ name ++ " not found"), []) := by
  simp [callToolHandler, h1, h2, h3]

/-- Witness for C8 at a concrete environment and tool name. -/
theorem unknown_tool_not_found_witness :
    callToolHandler emptyUpstream "foo" none = (.error "Tool foo not found", []) :=
  unknown_tool_not_found emptyUpstream "foo" none (by decide) (by decide) (by decide)

/-- C9: the Resource Reader does not validate the scheme: for a URI that
does not contain the substring `gyazo-mcp:///`, the replace leaves the URI
unchanged, the whole URI is used as the identifier, and the handler's first
(and not locally rejected) action is the upstream fetch for that
identifier. -/
theorem read_does_not_validate_scheme (env : Upstream) (uri : String)
    (h : jsIncludes uri "gyazo-mcp:///" = false) :
    stripResourceUri uri = uri ∧
    (readResourceHandler env uri).2.head? = some (.getImage uri) := by
  have hs : stripResourceUri uri = uri := by
    show String.mk (replaceFirstL "gyazo-mcp:///".data "".data uri.data) = uri
    rw [replaceFirstL_of_not_contains _ _ _ h]
  refine ⟨hs, ?_⟩
  unfold readResourceHandler
  rw [hs]
  cases henv : env.getImage uri <;> simp [henv]

/-- Witness for C9 at a concrete environment and URI. -/
theorem read_does_not_validate_scheme_witness :
    stripResourceUri "https://example.com/x.png" = "https://example.com/x.png" ∧
    (readResourceHandler emptyUpstream "https://example.com/x.png").2.head? =
      some (.getImage "https://example.com/x.png") :=
  read_does_not_validate_scheme emptyUpstream "https://example.com/x.png" (by decide)

/-! ### Behaviour of the data-URI header regex -/

theorem takeWhile_dropWhile_append_of_all (p : Char → Bool) (l m : List Char)
    (hall : ∀ c ∈ l, p c = true) :
    (l ++ m).takeWhile p = l ++ m.takeWhile p ∧
    (l ++ m).dropWhile p = m.dropWhile p := by
  induction l with
  | nil => simp
  | cons a l ih =>
      have ha : p a = true := hall a (List.mem_cons_self a l)
      have ih' := ih (fun c hc => hall c (List.mem_cons_of_mem a hc))
      simp [List.takeWhile_cons, List.dropWhile_cons, ha, ih'.1, ih'.2]

theorem takeWhile_dropWhile_append_of_exists (p : Char → Bool) (l m : List Char)
    (h : ∃ c ∈ l, p c = false) :
    (l ++ m).takeWhile p = l.takeWhile p ∧
    (l ++ m).dropWhile p = l.dropWhile p ++ m := by
  induction l with
  | nil => simp at h
  | cons a l ih =>
      cases ha : p a with
      | false => simp [List.takeWhile_cons, List.dropWhile_cons, ha]
      | true =>
          obtain ⟨c, hc, hfc⟩ := h
          have hcl : c ∈ l := by
            rcases List.mem_cons.1 hc with rfl | hcl
            · rw [ha] at hfc; cases hfc
            · exact hcl
          have ih' := ih ⟨c, hcl, hfc⟩
          simp [List.takeWhile_cons, List.dropWhile_cons, ha, ih'.1, ih'.2]

theorem dropWhile_head_false (p : Char → Bool) :
    ∀ (l : List Char) (c : Char) (tl : List Char),
      l.dropWhile p = c :: tl → p c = false := by
  intro l
  induction l with
  | nil => intro c tl h; cases h
  | cons a l ih =>
      intro c tl h
      rw [List.dropWhile_cons] at h
      cases ha : p a with
      | true => rw [ha] at h; simp at h; exact ih c tl h
      | false =>
          rw [ha] at h
          simp at h
          rw [← h.1, ha]

theorem startsWithL_cons_ne (a c : Char) (ps cs : List Char) (h : a ≠ c) :
    startsWithL (a :: ps) (c :: cs) = false := by
  simp [startsWithL, h]

/-- Successful match of the data-URI header regex: when the subtype consists
of word characters only (and is non-empty), the regex consumes exactly
`data:image/<sub>;base64,` and captures the subtype. -/
theorem dataUriMatchL_pos (sub rest : List Char) (h1 : sub ≠ [])
    (h2 : ∀ c ∈ sub, isWordChar c = true) :
    dataUriMatchL ("data:image/".data ++ (sub ++ (";base64,".data ++ rest))) =
      some (sub, rest) := by
  have hsemi : (";base64,".data ++ rest).takeWhile isWordChar = [] ∧
      (";base64,".data ++ rest).dropWhile isWordChar = ";base64,".data ++ rest := by
    have hcons : (";base64,".data ++ rest) = ';' :: ("base64,".data ++ rest) := rfl
    rw [hcons]
    constructor
    · rw [List.takeWhile_cons]
      simp [isWordChar]
    · rw [List.dropWhile_cons]
      simp [isWordChar]
  have htd := takeWhile_dropWhile_append_of_all isWordChar sub
    (";base64,".data ++ rest) h2
  have hie : sub.isEmpty = false := by
    cases sub with
    | nil => cases h1 rfl
    | cons a tl => rfl
  unfold dataUriMatchL
  rw [if_pos (startsWithL_self_append _ _), List.drop_left]
  simp only [htd.1, htd.2, hsemi.1, hsemi.2, List.append_nil,
    startsWithL_self_append, hie, List.drop_left, Bool.not_false,
    Bool.and_true, if_true]

/-- Failing match of the data-URI header regex: when the subtype contains a
non-word character (and no `;`, so that it really is the whole text between
`data:image/` and `;base64,`), the regex does not match. -/
theorem dataUriMatchL_neg (sub rest : List Char)
    (h1 : ∃ c ∈ sub, isWordChar c = false) (h2 : (';' : Char) ∉ sub) :
    dataUriMatchL ("data:image/".data ++ (sub ++ (";base64,".data ++ rest))) =
      none := by
  have htd := takeWhile_dropWhile_append_of_exists isWordChar sub
    (";base64,".data ++ rest) h1
  have hne : sub.dropWhile isWordChar ≠ [] := by
    intro hnil
    obtain ⟨c, hc, hfc⟩ := h1
    have := (List.dropWhile_eq_nil_iff).1 hnil c hc
    rw [this] at hfc
    cases hfc
  obtain ⟨c₀, tl, hd⟩ : ∃ c₀ tl, sub.dropWhile isWordChar = c₀ :: tl := by
    cases hdd : sub.dropWhile isWordChar with
    | nil => exact absurd hdd hne
    | cons c₀ tl => exact ⟨c₀, tl, rfl⟩
  have hc₀mem : c₀ ∈ sub := by
    have hsub := (List.dropWhile_sublist (l := sub) isWordChar).subset
    rw [hd] at hsub
    exact hsub (List.mem_cons_self c₀ tl)
  have hc₀ne : (';' : Char) ≠ c₀ := fun h => h2 (h ▸ hc₀mem)
  have hsw : startsWithL ";base64,".data ((c₀ :: tl) ++ (";base64,".data ++ rest))
      = false := by
    have hcons : (";base64,".data) = ';' :: "base64,".data := rfl
    rw [List.cons_append, hcons]
    exact startsWithL_cons_ne _ _ _ _ hc₀ne
  unfold dataUriMatchL
  rw [if_pos (startsWithL_self_append _ _), List.drop_left]
  simp only [htd.2, hd, hsw, Bool.and_false, Bool.false_eq_true, if_false]

/-- C2: the upload tool's `imageData` parsing.  When the input is
`data:image/<subtype>;base64,<rest>` with a (non-empty) word-character
subtype, the subtype becomes the content type and only `<rest>` is
base64-decoded; when the regex does not match, the content type defaults to
`png` and the whole input string is decoded.  In particular
`"data:image/jpeg;base64,QUJD"` gives content type `jpeg` with decoded bytes
the bytes of `"ABC"`, and `"QUJD"` gives content type `png` with the same
bytes. -/
theorem upload_imageData_parse (sub rest : String)
    (h1 : sub.data ≠ []) (h2 : ∀ c ∈ sub.data, isWordChar c = true) :
    dataUriImageType ("data:image/" ++ sub ++ ";base64," ++ rest) = sub ∧
    stripDataUriHeader ("data:image/" ++ sub ++ ";base64," ++ rest) = rest ∧
    (∀ s : String, dataUriMatch s = none →
      dataUriImageType s = "png" ∧ stripDataUriHeader s = s) ∧
    dataUriImageType "data:image/jpeg;base64,QUJD" = "jpeg" ∧
    base64Decode (stripDataUriHeader "data:image/jpeg;base64,QUJD") =
      "ABC".data.map Char.toNat ∧
    dataUriImageType "QUJD" = "png" ∧
    base64Decode (stripDataUriHeader "QUJD") = "ABC".data.map Char.toNat := by
  have hdata : ("data:image/" ++ sub ++ ";base64," ++ rest).data =
      "data:image/".data ++ (sub.data ++ (";base64,".data ++ rest.data)) := by
    simp [String.data_append, List.append_assoc]
  have hm : dataUriMatch ("data:image/" ++ sub ++ ";base64," ++ rest) =
      some (sub, rest) := by
    unfold dataUriMatch
    rw [hdata, dataUriMatchL_pos sub.data rest.data h1 h2]
  refine ⟨?_, ?_, ?_, by decide, by decide, by decide, by decide⟩
  · unfold dataUriImageType
    rw [hm]
  · unfold stripDataUriHeader
    rw [hm]
  · intro s hs
    unfold dataUriImageType stripDataUriHeader
    rw [hs]
    exact ⟨rfl, rfl⟩

/-- Witness for C2 at the concrete inputs named by the claim. -/
theorem upload_imageData_parse_witness :
    dataUriImageType ("data:image/" ++ "jpeg" ++ ";base64," ++ "QUJD") = "jpeg" ∧
    stripDataUriHeader ("data:image/" ++ "jpeg" ++ ";base64," ++ "QUJD") = "QUJD" ∧
    (∀ s : String, dataUriMatch s = none →
      dataUriImageType s = "png" ∧ stripDataUriHeader s = s) ∧
    dataUriImageType "data:image/jpeg;base64,QUJD" = "jpeg" ∧
    base64Decode (stripDataUriHeader "data:image/jpeg;base64,QUJD") =
      "ABC".data.map Char.toNat ∧
    dataUriImageType "QUJD" = "png" ∧
    base64Decode (stripDataUriHeader "QUJD") = "ABC".data.map Char.toNat :=
  upload_imageData_parse "jpeg" "QUJD" (by decide) (by decide)

/-- C10: the data-URI pattern accepts only word characters in the subtype:
for an `imageData` whose subtype segment contains a non-word character (for
example `data:image/svg+xml;base64,...`), the regex does not match, the
content type stays at the default `png`, and the whole string — unstripped
header included — is what gets base64-decoded. -/
theorem upload_nonword_subtype_defaults_png (sub rest : String)
    (h1 : ∃ c ∈ sub.data, isWordChar c = false)
    (h2 : (';' : Char) ∉ sub.data) :
    dataUriMatch ("data:image/" ++ sub ++ ";base64," ++ rest) = none ∧
    dataUriImageType ("data:image/" ++ sub ++ ";base64," ++ rest) = "png" ∧
    stripDataUriHeader ("data:image/" ++ sub ++ ";base64," ++ rest) =
      "data:image/" ++ sub ++ ";base64," ++ rest := by
  have hdata : ("data:image/" ++ sub ++ ";base64," ++ rest).data =
      "data:image/".data ++ (sub.data ++ (";base64,".data ++ rest.data)) := by
    simp [String.data_append, List.append_assoc]
  have hm : dataUriMatch ("data:image/" ++ sub ++ ";base64," ++ rest) = none := by
    unfold dataUriMatch
    rw [hdata, dataUriMatchL_neg sub.data rest.data h1 h2]
  refine ⟨hm, ?_, ?_⟩
  · unfold dataUriImageType
    rw [hm]
  · unfold stripDataUriHeader
    rw [hm]

/-- Witness for C10 at the claim's example subtype `svg+xml`. -/
theorem upload_nonword_subtype_defaults_png_witness :
    dataUriMatch ("data:image/" ++ "svg+xml" ++ ";base64," ++ "QUJD") = none ∧
    dataUriImageType ("data:image/" ++ "svg+xml" ++ ";base64," ++ "QUJD") = "png" ∧
    stripDataUriHeader ("data:image/" ++ "svg+xml" ++ ";base64," ++ "QUJD") =
      "data:image/" ++ "svg+xml" ++ ";base64," ++ "QUJD" :=
  upload_nonword_subtype_defaults_png "svg+xml" "QUJD"
    ⟨'+', by decide, by decide⟩ (by decide)

end GyazoMcp
